import Mathlib

/-!
Verification development for the mailbox-monitoring engine of
SbisNotifyCalls (src/email_reader.py).  The Python class EmailReader is
shallowly embedded: mutable fields become an explicit `ReaderState` record,
blocking network calls become oracles packaged in environment records, and
every try/except becomes an explicit case split on the oracle outcome.
Wall-clock time is an integer number of seconds (UTC); the IMAP server is
modelled by its documented RFC 3501 search semantics (day-granular SINCE,
substring FROM), which is the contract the source relies on.
-/

/-- Bytes of a message payload (Python bytes are numbers 0..255). -/
abbrev Bytes := List Nat

/-- Admissible second byte of a multi-byte UTF-8 sequence for a given lead
byte (excludes overlong forms, surrogates and code points beyond U+10FFFF). -/
def utf8Valid2 (b b2 : Nat) : Bool :=
  if b = 0xE0 then decide (0xA0 ≤ b2) && decide (b2 < 0xC0)
  else if b = 0xED then decide (0x80 ≤ b2) && decide (b2 < 0xA0)
  else if b < 0xF0 then decide (0x80 ≤ b2) && decide (b2 < 0xC0)
  else if b = 0xF0 then decide (0x90 ≤ b2) && decide (b2 < 0xC0)
  else if b = 0xF4 then decide (0x80 ≤ b2) && decide (b2 < 0x90)
  else decide (0x80 ≤ b2) && decide (b2 < 0xC0)

/-- Is a plain continuation byte (0x80..0xBF). -/
def utf8Cont (b : Nat) : Bool :=
  decide (0x80 ≤ b) && decide (b < 0xC0)

/-- One step of UTF-8 decoding with the Python errors=ignore policy:
every maximal invalid subpart of the input is dropped and decoding resumes
at the next byte, mirroring bytes.decode with errors=ignore as used in
get_email_body.  Fuel-driven so the definition is structurally recursive;
each step consumes at least one byte, so fuel = length suffices. -/
def utf8GoIgnore : Nat → Bytes → List Char
  | 0, _ => []
  | _ + 1, [] => []
  | fuel + 1, b :: bs =>
    if b < 0x80 then
      Char.ofNat b :: utf8GoIgnore fuel bs
    else if b < 0xC2 then
      -- stray continuation byte or overlong two-byte lead: dropped
      utf8GoIgnore fuel bs
    else if b < 0xE0 then
      match bs with
      | [] => []
      | b2 :: bs2 =>
        if utf8Cont b2 then
          Char.ofNat ((b - 0xC0) * 0x40 + (b2 - 0x80)) :: utf8GoIgnore fuel bs2
        else
          utf8GoIgnore fuel (b2 :: bs2)
    else if b < 0xF0 then
      match bs with
      | [] => []
      | [b2] => if utf8Valid2 b b2 then [] else utf8GoIgnore fuel [b2]
      | b2 :: b3 :: bs3 =>
        if utf8Valid2 b b2 then
          if utf8Cont b3 then
            Char.ofNat ((b - 0xE0) * 0x1000 + (b2 - 0x80) * 0x40 + (b3 - 0x80))
              :: utf8GoIgnore fuel bs3
          else
            utf8GoIgnore fuel (b3 :: bs3)
        else
          utf8GoIgnore fuel (b2 :: b3 :: bs3)
    else if b < 0xF5 then
      match bs with
      | [] => []
      | [b2] => if utf8Valid2 b b2 then [] else utf8GoIgnore fuel [b2]
      | [b2, b3] =>
        if utf8Valid2 b b2 then
          if utf8Cont b3 then [] else utf8GoIgnore fuel [b3]
        else utf8GoIgnore fuel [b2, b3]
      | b2 :: b3 :: b4 :: bs4 =>
        if utf8Valid2 b b2 then
          if utf8Cont b3 then
            if utf8Cont b4 then
              Char.ofNat ((b - 0xF0) * 0x40000 + (b2 - 0x80) * 0x1000 +
                (b3 - 0x80) * 0x40 + (b4 - 0x80)) :: utf8GoIgnore fuel bs4
            else utf8GoIgnore fuel (b4 :: bs4)
          else utf8GoIgnore fuel (b3 :: b4 :: bs4)
        else utf8GoIgnore fuel (b2 :: b3 :: b4 :: bs4)
    else
      -- 0xF5..0xFF can never start a UTF-8 sequence: dropped
      utf8GoIgnore fuel bs

/-- UTF-8 decoding with the Python errors=ignore policy. -/
def utf8DecodeIgnore (bs : Bytes) : List Char :=
  utf8GoIgnore bs.length bs

/-- One step of UTF-8 decoding with the Python errors=replace policy: every
maximal invalid subpart is replaced by U+FFFD.  Same structure as
`utf8GoIgnore`, emitting the replacement character where that one drops. -/
def utf8GoReplace : Nat → Bytes → List Char
  | 0, _ => []
  | _ + 1, [] => []
  | fuel + 1, b :: bs =>
    if b < 0x80 then
      Char.ofNat b :: utf8GoReplace fuel bs
    else if b < 0xC2 then
      '�' :: utf8GoReplace fuel bs
    else if b < 0xE0 then
      match bs with
      | [] => ['�']
      | b2 :: bs2 =>
        if utf8Cont b2 then
          Char.ofNat ((b - 0xC0) * 0x40 + (b2 - 0x80)) :: utf8GoReplace fuel bs2
        else
          '�' :: utf8GoReplace fuel (b2 :: bs2)
    else if b < 0xF0 then
      match bs with
      | [] => ['�']
      | [b2] => if utf8Valid2 b b2 then ['�'] else '�' :: utf8GoReplace fuel [b2]
      | b2 :: b3 :: bs3 =>
        if utf8Valid2 b b2 then
          if utf8Cont b3 then
            Char.ofNat ((b - 0xE0) * 0x1000 + (b2 - 0x80) * 0x40 + (b3 - 0x80))
              :: utf8GoReplace fuel bs3
          else
            '�' :: utf8GoReplace fuel (b3 :: bs3)
        else
          '�' :: utf8GoReplace fuel (b2 :: b3 :: bs3)
    else if b < 0xF5 then
      match bs with
      | [] => ['�']
      | [b2] => if utf8Valid2 b b2 then ['�'] else '�' :: utf8GoReplace fuel [b2]
      | [b2, b3] =>
        if utf8Valid2 b b2 then
          if utf8Cont b3 then ['�'] else '�' :: utf8GoReplace fuel [b3]
        else '�' :: utf8GoReplace fuel [b2, b3]
      | b2 :: b3 :: b4 :: bs4 =>
        if utf8Valid2 b b2 then
          if utf8Cont b3 then
            if utf8Cont b4 then
              Char.ofNat ((b - 0xF0) * 0x40000 + (b2 - 0x80) * 0x1000 +
                (b3 - 0x80) * 0x40 + (b4 - 0x80)) :: utf8GoReplace fuel bs4
            else '�' :: utf8GoReplace fuel (b4 :: bs4)
          else '�' :: utf8GoReplace fuel (b3 :: b4 :: bs4)
        else '�' :: utf8GoReplace fuel (b2 :: b3 :: b4 :: bs4)
    else
      '�' :: utf8GoReplace fuel bs

/-- UTF-8 decoding with the Python errors=replace policy. -/
def utf8DecodeReplace (bs : Bytes) : List Char :=
  utf8GoReplace bs.length bs

/-- Model of Python bytes.decode(charset, errors=ignore) for the charsets
exercised by this development; an unknown codec name raises a LookupError in
Python, modelled as `none`. -/
def pyDecodeIgnore (charset : String) (bs : Bytes) : Option String :=
  if charset = "utf-8" then some (String.mk (utf8DecodeIgnore bs))
  else if charset = "ascii" then
    some (String.mk ((bs.filter (fun b => decide (b < 0x80))).map Char.ofNat))
  else none

/-- Model of Python bytes.decode(charset, errors=replace), used only to state
what the specification text claims the source does. -/
def pyDecodeReplace (charset : String) (bs : Bytes) : Option String :=
  if charset = "utf-8" then some (String.mk (utf8DecodeReplace bs))
  else if charset = "ascii" then
    some (String.mk (bs.map (fun b => if b < 0x80 then Char.ofNat b else '�')))
  else none

/-- The whitespace class of Python str.strip (the characters that occur in
this development). -/
def pySpace (c : Char) : Bool :=
  c = ' ' || c = '\t' || c = '\n' || c = '\r'

/-- Python str.strip on a character list: drop whitespace on both ends. -/
def trimChars (cs : List Char) : List Char :=
  ((cs.dropWhile pySpace).reverse.dropWhile pySpace).reverse

/-- Python str.strip. -/
def pyStrip (s : String) : String :=
  String.mk (trimChars s.data)

/-- Scan for the closing bracket of an HTML tag: first greater-than sign,
failing on a less-than sign or end of input (the content class of the regex
in get_email_body excludes a less-than sign). -/
def tagScan : List Char → Option (List Char)
  | [] => none
  | c :: rest =>
    if c = '>' then some rest
    else if c = '<' then none
    else tagScan rest

/-- Given the characters following an opening less-than sign, return the
remainder after a tag match of the regex used in get_email_body (one or more
characters other than a less-than sign, lazily, then a greater-than sign),
or `none` when no tag starts here. -/
def tagEnd : List Char → Option (List Char)
  | [] => none
  | c1 :: rest => if c1 = '<' then none else tagScan rest

/-- Left-to-right substitution pass of the tag-removal regex, as re.sub
applies it in get_email_body.  Fuel-driven (fuel = length suffices). -/
def stripTagsGo : Nat → List Char → List Char
  | 0, cs => cs
  | _ + 1, [] => []
  | fuel + 1, c :: rest =>
    if c = '<' then
      match tagEnd rest with
      | some rest2 => stripTagsGo fuel rest2
      | none => c :: stripTagsGo fuel rest
    else c :: stripTagsGo fuel rest

/-- Simple HTML tag removal used for text/html parts in get_email_body. -/
def stripTags (s : String) : String :=
  String.mk (stripTagsGo s.data.length s.data)

/-- One MIME part of a multipart message, as seen by msg.walk(): its content
type, declared charset (none when undeclared) and decoded payload bytes. -/
structure MimePart where
  contentType : String
  charset : Option String
  payload : Bytes

/-- A parsed protocol message body: either single-part (msg.is_multipart()
false) with a declared charset and payload, or multipart with its parts in
walk order. -/
inductive MimeMsg where
  | single (charset : Option String) (payload : Bytes)
  | multi (parts : List MimePart)

/-- The fixed body produced by the except branch of get_email_body. -/
def errorBody : String := "Ошибка при извлечении текста письма"

/-- The part-walking loop of get_email_body: first text/plain part wins and
stops the walk; otherwise the first text/html part, tag-stripped, is kept
while the walk continues; a decode failure raises, modelled as `none`. -/
def walkParts : List MimePart → String → Option String
  | [], body => some body
  | p :: rest, body =>
    if p.contentType = "text/plain" then
      match pyDecodeIgnore ((p.charset).getD "utf-8") p.payload with
      | some s => some s
      | none => none
    else if p.contentType = "text/html" && body == "" then
      match pyDecodeIgnore ((p.charset).getD "utf-8") p.payload with
      | some s => walkParts rest (stripTags s)
      | none => none
    else walkParts rest body

/-- EmailReader.get_email_body: extract the text of a message.  Multipart:
first text/plain, else first text/html with tags stripped; single part:
payload decoded with the declared charset, defaulting to utf-8, with
errors=ignore.  Any exception inside yields the fixed error body; the result
is stripped of surrounding whitespace. -/
def EmailReader.get_email_body : MimeMsg → String
  | .single charset payload =>
    pyStrip (match pyDecodeIgnore (charset.getD "utf-8") payload with
     | some s => s
     | none => errorBody)
  | .multi parts =>
    pyStrip (match walkParts parts "" with
     | some s => s
     | none => errorBody)

/-- Modelled from the spec: the body-extraction policy for a single-part
message as the specification words it — payload decoded with its declared
charset, defaulting to UTF-8, with decode errors REPLACED rather than
raising.  Stated only to compare against the source, whose
EmailReader.get_email_body uses errors=ignore. -/
def get_email_body_spec (charset : Option String) (payload : Bytes) : String :=
  pyStrip (match pyDecodeReplace (charset.getD "utf-8") payload with
   | some s => s
   | none => errorBody)

/-- Model of EmailReader.decode_mime_header.  Header values in this model
carry already-decoded text: on plain (unencoded) header text decode_header
returns the input unchanged, and the except branch of the source also
returns the raw header, so the function is the identity here. -/
def EmailReader.decode_mime_header (h : String) : String := h

/-- Model of email.utils.parseaddr on the two header shapes exercised here:
a display name followed by an angle-bracketed address yields the pair
(name, address); a bare address yields an empty name and the address. -/
def parseaddr (s : String) : String × String :=
  match s.data.dropWhile (fun c => !(c = '<')) with
  | [] => ("", String.mk (trimChars s.data))
  | _ :: rest =>
    (String.mk (trimChars (s.data.takeWhile (fun c => !(c = '<')))),
     String.mk (trimChars (rest.takeWhile (fun c => !(c = '>')))))

/-- Does `needle` occur as a contiguous substring of `hay`?  This is the
RFC 3501 matching rule for the FROM search key (the server matches the given
string anywhere inside the From field, not as a whole address). -/
def containsSub (needle : List Char) : List Char → Bool
  | [] => needle.isEmpty
  | c :: t => needle.isPrefixOf (c :: t) || containsSub needle t

/-- One message sitting in the INBOX, from the point of view of one fetch:
its protocol id, the server-side internal date (used by the SINCE search
key), the raw From header, the Subject header, the parsed Date header as a
timezone-normalized instant (none when email.utils.parsedate_to_datetime
raises), and the MIME body. -/
structure Msg where
  mid : Nat
  internalDate : Int
  fromHeader : String
  subject : String
  dateHeader : Option Int
  mime : MimeMsg

/-- The record built for each new email in check_new_emails. -/
structure ParsedEmail where
  id : Nat
  subject : String
  from_name : String
  from_email : String
  body : String
  date : Int
deriving DecidableEq

/-- The mutable fields of the EmailReader instance: the IMAP session handle
(none when disconnected; handles are numbered so a stale handle can be told
from a fresh one) and the last-check watermark. -/
structure ReaderState where
  imap : Option Nat
  last_check_time : Int
deriving DecidableEq

/-- EmailReader.__init__: no session, watermark = now minus one minute. -/
def EmailReader.init (now : Int) : ReaderState :=
  { imap := none, last_check_time := now - 60 }

/-- Behaviour of one connection attempt inside EmailReader.connect:
the IMAP4_SSL constructor fails (transport error, no handle assigned);
or the constructor succeeds and login raises; or login returns a non-OK
status; or everything succeeds. -/
inductive AttemptOutcome where
  | transportFail
  | loginRaise
  | loginNotOk
  | ok
deriving DecidableEq

/-- Oracle for one call to EmailReader.connect: the outcome of each attempt
and the handle the constructor would create at that attempt. -/
structure ConnectEnv where
  outcome : Nat → AttemptOutcome
  handle : Nat → Nat

/-- Observable result of EmailReader.connect: the returned boolean, the
final self.imap field, the backoff sleeps performed (seconds, in order) and
the number of attempts made. -/
structure ConnectResult where
  success : Bool
  imap : Option Nat
  sleeps : List Nat
  attempts : Nat
deriving DecidableEq

/-- The retry loop of EmailReader.connect, one constructor per iteration.
`attempt` is the zero-based loop counter, the last argument the number of
remaining iterations.  On constructor success the handle is stored in
self.imap even when login then fails; a sleep of 5 * (attempt + 1) seconds
happens after every failed attempt except the last. -/
def EmailReader.connectGo (cenv : ConnectEnv) (imap : Option Nat) (attempt : Nat) :
    Nat → ConnectResult
  | 0 => { success := false, imap := imap, sleeps := [], attempts := 0 }
  | remaining + 1 =>
    match cenv.outcome attempt with
    | .ok =>
      { success := true, imap := some (cenv.handle attempt), sleeps := [], attempts := 1 }
    | .transportFail =>
      let r := EmailReader.connectGo cenv imap (attempt + 1) remaining
      { success := r.success, imap := r.imap,
        sleeps := (if remaining ≠ 0 then [5 * (attempt + 1)] else []) ++ r.sleeps,
        attempts := r.attempts + 1 }
    | .loginRaise =>
      let r := EmailReader.connectGo cenv (some (cenv.handle attempt)) (attempt + 1) remaining
      { success := r.success, imap := r.imap,
        sleeps := (if remaining ≠ 0 then [5 * (attempt + 1)] else []) ++ r.sleeps,
        attempts := r.attempts + 1 }
    | .loginNotOk =>
      let r := EmailReader.connectGo cenv (some (cenv.handle attempt)) (attempt + 1) remaining
      { success := r.success, imap := r.imap,
        sleeps := (if remaining ≠ 0 then [5 * (attempt + 1)] else []) ++ r.sleeps,
        attempts := r.attempts + 1 }

/-- EmailReader.connect with retry_count attempts (the source default is 3).
Returns False after exhausting all attempts; no exception escapes (every
attempt body is wrapped in except clauses covering all exceptions). -/
def EmailReader.connect (cenv : ConnectEnv) (imap : Option Nat) (retry_count : Nat) :
    ConnectResult :=
  EmailReader.connectGo cenv imap 0 retry_count

/-- Oracle for EmailReader.disconnect: whether close() and logout() complete
without raising for a given handle. -/
structure TeardownEnv where
  closeOk : Nat → Bool
  logoutOk : Nat → Bool

/-- EmailReader.disconnect: when a session exists, close then logout then
clear self.imap; an exception from close or logout is caught AFTER the
assignment is skipped, so the stale handle stays stored. -/
def EmailReader.disconnect (te : TeardownEnv) : Option Nat → Option Nat
  | none => none
  | some h => if te.closeOk h && te.logoutOk h then none else some h

/-- Behaviour of one call to self.imap.select("INBOX"): OK status, non-OK
status, a raised connection-class exception (the tuple caught at the select
site and the outer handler), or any other exception. -/
inductive SelectOutcome where
  | ok
  | notOk
  | raiseConn
  | raiseOther
deriving DecidableEq

/-- Behaviour of the self.imap.search call: OK with the RFC 3501 result,
non-OK status, a raised connection-class exception, or any other
exception. -/
inductive SearchOutcome where
  | ok
  | notOk
  | raiseConn
  | raiseOther
deriving DecidableEq

/-- Behaviour of one self.imap.fetch call inside the per-message loop: OK,
non-OK status (skipped by the continue), or a raised exception (any
exception in the loop is caught by the per-message handler). -/
inductive FetchOutcome where
  | ok
  | notOk
  | raiseErr
deriving DecidableEq

/-- Environment of one check_new_emails cycle: the wall clock read when the
watermark is advanced, the noop probe result per handle, a connect oracle
per connect call made in this cycle (index 0 is the ensure_connection
connect, 1 and 2 the reconnects in the select handling), a select oracle per
select call (in call order), the teardown oracle, the search outcome, the
INBOX content, and the fetch outcome per message id. -/
structure CycleEnv where
  now : Int
  noopOk : Nat → Bool
  connectEnv : Nat → ConnectEnv
  selectOut : Nat → SelectOutcome
  te : TeardownEnv
  searchOut : SearchOutcome
  mailbox : List Msg
  fetchOut : Nat → FetchOutcome

/-- EmailReader.ensure_connection: connect when no session exists; otherwise
probe with noop and, on a failed probe, disconnect and reconnect.  Returns
the boolean result together with the final self.imap field. -/
def EmailReader.ensure_connection (env : CycleEnv) : Option Nat → Bool × Option Nat
  | none =>
    let r := EmailReader.connect (env.connectEnv 0) none 3
    (r.success, r.imap)
  | some h =>
    if env.noopOk h then (true, some h)
    else
      let i := EmailReader.disconnect env.te (some h)
      let r := EmailReader.connect (env.connectEnv 0) i 3
      (r.success, r.imap)

/-- Result of the INBOX-selection block of check_new_emails (lines 165-182):
either the early `return []` after a failed reconnect, an exception
propagating to the outer handlers (with the self.imap value at that point),
or fall-through to the search with the current self.imap value. -/
inductive PreResult where
  | earlyEmpty (imap : Option Nat)
  | raised (conn : Bool) (imap : Option Nat)
  | proceed (imap : Option Nat)
deriving DecidableEq

/-- The INBOX-selection block of check_new_emails.  A non-OK select result
triggers disconnect + connect + a second select whose status is ignored but
whose connection-class exception is caught by the clause at line 175, which
itself disconnects, reconnects and selects a third time; exceptions of that
third select (and non-connection exceptions anywhere) propagate out. -/
def selectPhase (env : CycleEnv) (imap : Option Nat) : PreResult :=
  match env.selectOut 0 with
  | .ok => .proceed imap
  | .notOk =>
    let i1 := EmailReader.disconnect env.te imap
    let r := EmailReader.connect (env.connectEnv 1) i1 3
    if !r.success then .earlyEmpty r.imap
    else
      match env.selectOut 1 with
      | .ok => .proceed r.imap
      | .notOk => .proceed r.imap
      | .raiseConn =>
        let i2 := EmailReader.disconnect env.te r.imap
        let r2 := EmailReader.connect (env.connectEnv 2) i2 3
        if !r2.success then .earlyEmpty r2.imap
        else
          match env.selectOut 2 with
          | .ok => .proceed r2.imap
          | .notOk => .proceed r2.imap
          | .raiseConn => .raised true r2.imap
          | .raiseOther => .raised false r2.imap
      | .raiseOther => .raised false r.imap
  | .raiseConn =>
    let i1 := EmailReader.disconnect env.te imap
    let r := EmailReader.connect (env.connectEnv 1) i1 3
    if !r.success then .earlyEmpty r.imap
    else
      match env.selectOut 1 with
      | .ok => .proceed r.imap
      | .notOk => .proceed r.imap
      | .raiseConn => .raised true r.imap
      | .raiseOther => .raised false r.imap
  | .raiseOther => .raised false imap

/-- Day bucket of a timestamp: the SINCE search key carries only the
DD-Mon-YYYY part of the watermark (strftime in check_new_emails), so the
server compares at day granularity. -/
def imapDay (t : Int) : Int := Int.fdiv t 86400

/-- RFC 3501 semantics of the search query built in check_new_emails:
SINCE keeps messages whose internal date falls on or after the watermark
day; the optional FROM key keeps messages whose From field contains the
given string as a substring. -/
def matchesSearch (wm : Int) (sender : Option String) (m : Msg) : Bool :=
  decide (imapDay wm ≤ imapDay m.internalDate) &&
    (match sender with
     | none => true
     | some f => containsSub f.data m.fromHeader.data)

/-- The message ids returned by the server for the search query, in mailbox
order. -/
def searchIds (mailbox : List Msg) (wm : Int) (sender : Option String) : List Nat :=
  (mailbox.filter (matchesSearch wm sender)).map Msg.mid

/-- The ParsedEmail record built in the loop body of check_new_emails for a
fetched message. -/
def mkParsed (i : Nat) (m : Msg) (d : Int) : ParsedEmail :=
  { id := i
    subject := EmailReader.decode_mime_header m.subject
    from_name :=
      if (parseaddr m.fromHeader).1 = "" then (parseaddr m.fromHeader).2
      else EmailReader.decode_mime_header (parseaddr m.fromHeader).1
    from_email := (parseaddr m.fromHeader).2
    body := EmailReader.get_email_body m.mime
    date := d }

/-- The per-message loop of check_new_emails: fetch each id (non-OK status
or a raised exception skips the id), look the message up, parse its Date
header (a failure raises, is caught per message and skips the id), discard
messages at or before the watermark, and collect the rest in order. -/
def processEmails (f : Nat → FetchOutcome) (mb : List Msg) (wm : Int) :
    List Nat → List ParsedEmail
  | [] => []
  | i :: rest =>
    match f i with
    | .notOk => processEmails f mb wm rest
    | .raiseErr => processEmails f mb wm rest
    | .ok =>
      match mb.find? (fun mm => mm.mid == i) with
      | none => processEmails f mb wm rest
      | some m =>
        match m.dateHeader with
        | none => processEmails f mb wm rest
        | some d =>
          if d ≤ wm then processEmails f mb wm rest
          else mkParsed i m d :: processEmails f mb wm rest

/-- EmailReader.check_new_emails: one poll cycle.  Ensure the connection,
select INBOX, search, process each found id, then set the watermark to the
current wall clock.  The outer handlers turn a connection-class exception
into disconnect + empty result and any other exception into a bare empty
result; in both cases the watermark is left untouched. -/
def EmailReader.check_new_emails (env : CycleEnv) (st : ReaderState)
    (sender : Option String) : List ParsedEmail × ReaderState :=
  match EmailReader.ensure_connection env st.imap with
  | (false, i) => ([], { imap := i, last_check_time := st.last_check_time })
  | (true, i0) =>
    match selectPhase env i0 with
    | .earlyEmpty i => ([], { imap := i, last_check_time := st.last_check_time })
    | .raised true i =>
      ([], { imap := EmailReader.disconnect env.te i, last_check_time := st.last_check_time })
    | .raised false i => ([], { imap := i, last_check_time := st.last_check_time })
    | .proceed i =>
      match env.searchOut with
      | .notOk => ([], { imap := i, last_check_time := st.last_check_time })
      | .raiseConn =>
        ([], { imap := EmailReader.disconnect env.te i, last_check_time := st.last_check_time })
      | .raiseOther => ([], { imap := i, last_check_time := st.last_check_time })
      | .ok =>
        (processEmails env.fetchOut env.mailbox st.last_check_time
          (searchIds env.mailbox st.last_check_time sender),
         { imap := i, last_check_time := env.now })

/-- True when the cycle reaches the per-message processing phase: the
connection was ensured, the select block fell through, and the search
returned OK. -/
def reachesProcessing (env : CycleEnv) (st : ReaderState) : Prop :=
  (EmailReader.ensure_connection env st.imap).1 = true ∧
  (match selectPhase env (EmailReader.ensure_connection env st.imap).2 with
   | .proceed _ => true
   | _ => false) = true ∧
  env.searchOut = .ok

instance (env : CycleEnv) (st : ReaderState) : Decidable (reachesProcessing env st) := by
  unfold reachesProcessing; infer_instance

/-- The exception, if any, that reaches the outer except clauses of
check_new_emails, together with the self.imap value at the moment it is
raised (true = the connection-class tuple at line 256, false = the bare
except at line 263). -/
def topRaise (env : CycleEnv) (st : ReaderState) : Option (Bool × Option Nat) :=
  match EmailReader.ensure_connection env st.imap with
  | (false, _) => none
  | (true, i0) =>
    match selectPhase env i0 with
    | .earlyEmpty _ => none
    | .raised c i => some (c, i)
    | .proceed i =>
      match env.searchOut with
      | .raiseConn => some (true, i)
      | .raiseOther => some (false, i)
      | _ => none

/-- The dispatch loop of run_email_monitoring over one poll result: the
handler returns true when the callback completes and false when it raises.
Returns the messages for which the callback was invoked (the raising call
included) and whether all callbacks completed. -/
def dispatchEmails (handler : ParsedEmail → Bool) :
    List ParsedEmail → List ParsedEmail × Bool
  | [] => ([], true)
  | e :: rest =>
    if handler e then
      let r := dispatchEmails handler rest
      (e :: r.1, r.2)
    else ([e], false)

/-- One iteration of the while-loop of EmailReader.run_email_monitoring:
poll, then invoke the callback for each returned message.  A callback
exception is caught by the loop-level except clause, which logs it,
disconnects and sleeps — the remaining messages of the cycle are dropped.
Returns the invoked messages and the state after the iteration. -/
def EmailReader.run_email_monitoring_cycle (env : CycleEnv) (st : ReaderState)
    (sender : Option String) (handler : ParsedEmail → Bool) :
    List ParsedEmail × ReaderState :=
  let res := EmailReader.check_new_emails env st sender
  let disp := dispatchEmails handler res.1
  if disp.2 then (disp.1, res.2)
  else (disp.1,
    { imap := EmailReader.disconnect env.te res.2.imap,
      last_check_time := res.2.last_check_time })

/-- The reader state before cycle n, for a trace of poll cycles driven by
the per-cycle environments `envs`. -/
def cycleStates (envs : Nat → CycleEnv) (sender : Option String)
    (st0 : ReaderState) : Nat → ReaderState
  | 0 => st0
  | n + 1 => (EmailReader.check_new_emails (envs n) (cycleStates envs sender st0 n) sender).2

/-- The list of ParsedEmail records returned by poll cycle n of a trace. -/
def cycleResult (envs : Nat → CycleEnv) (sender : Option String)
    (st0 : ReaderState) (n : Nat) : List ParsedEmail :=
  (EmailReader.check_new_emails (envs n) (cycleStates envs sender st0 n) sender).1

@[simp]
lemma mkParsed_id (i : Nat) (m : Msg) (d : Int) : (mkParsed i m d).id = i := rfl

@[simp]
lemma mkParsed_date (i : Nat) (m : Msg) (d : Int) : (mkParsed i m d).date = d := rfl

/-- The watermark after a poll cycle is either untouched or the cycle's
completion wall clock. -/
lemma last_check_cases (env : CycleEnv) (st : ReaderState) (sender : Option String) :
    (EmailReader.check_new_emails env st sender).2.last_check_time = st.last_check_time ∨
    (EmailReader.check_new_emails env st sender).2.last_check_time = env.now := by
  rcases hE : EmailReader.ensure_connection env st.imap with ⟨_ | _, i0⟩
  · simp [EmailReader.check_new_emails, hE]
  · cases hS : selectPhase env i0 with
    | earlyEmpty i => simp [EmailReader.check_new_emails, hE, hS]
    | raised c i =>
      cases c <;> simp [EmailReader.check_new_emails, hE, hS]
    | proceed i =>
      cases hq : env.searchOut <;>
        simp [EmailReader.check_new_emails, hE, hS, hq]

/-- When the per-message phase is reached, the poll result is exactly the
processed search hits and the watermark is set to the completion clock. -/
lemma check_reaches {env : CycleEnv} {st : ReaderState} (sender : Option String)
    (h : reachesProcessing env st) :
    (EmailReader.check_new_emails env st sender).1 =
      processEmails env.fetchOut env.mailbox st.last_check_time
        (searchIds env.mailbox st.last_check_time sender) ∧
    (EmailReader.check_new_emails env st sender).2.last_check_time = env.now := by
  obtain ⟨h1, h2, h3⟩ := h
  rcases hE : EmailReader.ensure_connection env st.imap with ⟨b, i0⟩
  rw [hE] at h1 h2
  simp only at h1
  subst h1
  simp only at h2
  cases hS : selectPhase env i0 with
  | earlyEmpty i => rw [hS] at h2; simp at h2
  | raised c i => rw [hS] at h2; simp at h2
  | proceed i => simp [EmailReader.check_new_emails, hE, hS, h3]

/-- When any stage before per-message processing fails, the poll returns an
empty list and leaves the watermark untouched. -/
lemma check_not_reaches {env : CycleEnv} {st : ReaderState} (sender : Option String)
    (h : ¬ reachesProcessing env st) :
    (EmailReader.check_new_emails env st sender).1 = [] ∧
    (EmailReader.check_new_emails env st sender).2.last_check_time = st.last_check_time := by
  rcases hE : EmailReader.ensure_connection env st.imap with ⟨_ | _, i0⟩
  · simp [EmailReader.check_new_emails, hE]
  · cases hS : selectPhase env i0 with
    | earlyEmpty i => simp [EmailReader.check_new_emails, hE, hS]
    | raised c i =>
      cases c <;> simp [EmailReader.check_new_emails, hE, hS]
    | proceed i =>
      cases hq : env.searchOut with
      | ok =>
        exact absurd ⟨by rw [hE], by rw [hE]; simp [hS], hq⟩ h
      | notOk => simp [EmailReader.check_new_emails, hE, hS, hq]
      | raiseConn => simp [EmailReader.check_new_emails, hE, hS, hq]
      | raiseOther => simp [EmailReader.check_new_emails, hE, hS, hq]

/-- Membership in the per-message loop output: every returned record comes
from a searched id whose fetch succeeded, whose message was found, whose
Date header parsed, and whose date lies strictly beyond the watermark. -/
lemma mem_processEmails {f : Nat → FetchOutcome} {mb : List Msg} {wm : Int} :
    ∀ {ids : List Nat} {e : ParsedEmail}, e ∈ processEmails f mb wm ids →
      ∃ i, i ∈ ids ∧ f i = .ok ∧
        ∃ m, mb.find? (fun mm => mm.mid == i) = some m ∧
          ∃ d, m.dateHeader = some d ∧ wm < d ∧ e = mkParsed i m d := by
  intro ids
  induction ids with
  | nil => intro e h; simp [processEmails] at h
  | cons i rest ih =>
    intro e h
    unfold processEmails at h
    cases hf : f i with
    | notOk =>
      rw [hf] at h
      obtain ⟨j, hj, rest'⟩ := ih h
      exact ⟨j, List.mem_cons_of_mem _ hj, rest'⟩
    | raiseErr =>
      rw [hf] at h
      obtain ⟨j, hj, rest'⟩ := ih h
      exact ⟨j, List.mem_cons_of_mem _ hj, rest'⟩
    | ok =>
      rw [hf] at h
      cases hfind : mb.find? (fun mm => mm.mid == i) with
      | none =>
        rw [hfind] at h
        obtain ⟨j, hj, rest'⟩ := ih h
        exact ⟨j, List.mem_cons_of_mem _ hj, rest'⟩
      | some m =>
        rw [hfind] at h
        simp only at h
        cases hd : m.dateHeader with
        | none =>
          rw [hd] at h
          obtain ⟨j, hj, rest'⟩ := ih h
          exact ⟨j, List.mem_cons_of_mem _ hj, rest'⟩
        | some d =>
          rw [hd] at h
          simp only at h
          by_cases hle : d ≤ wm
          · rw [if_pos hle] at h
            obtain ⟨j, hj, rest'⟩ := ih h
            exact ⟨j, List.mem_cons_of_mem _ hj, rest'⟩
          · rw [if_neg hle] at h
            rcases List.mem_cons.mp h with he | h'
            · exact ⟨i, List.mem_cons_self _ _, hf, m, hfind, d, hd, lt_of_not_le hle, he⟩
            · obtain ⟨j, hj, rest'⟩ := ih h'
              exact ⟨j, List.mem_cons_of_mem _ hj, rest'⟩

/-- Membership in a poll result: the watermark was advanced to the cycle
clock and the record decomposes through the search and the loop. -/
lemma mem_check {env : CycleEnv} {st : ReaderState} {sender : Option String}
    {e : ParsedEmail} (h : e ∈ (EmailReader.check_new_emails env st sender).1) :
    (EmailReader.check_new_emails env st sender).2.last_check_time = env.now ∧
    ∃ i, i ∈ searchIds env.mailbox st.last_check_time sender ∧ env.fetchOut i = .ok ∧
      ∃ m, env.mailbox.find? (fun mm => mm.mid == i) = some m ∧
        ∃ d, m.dateHeader = some d ∧ st.last_check_time < d ∧ e = mkParsed i m d := by
  by_cases hr : reachesProcessing env st
  · obtain ⟨h1, h2⟩ := check_reaches sender hr
    rw [h1] at h
    exact ⟨h2, mem_processEmails h⟩
  · rw [(check_not_reaches sender hr).1] at h
    simp at h

/-- Once the watermark has been set to the completion clock of cycle N, it
never drops below that value in later cycles of a trace with a
non-decreasing clock. -/
lemma cycleStates_ge (envs : Nat → CycleEnv) (sender : Option String)
    (st0 : ReaderState) (N : Nat)
    (hbase : (cycleStates envs sender st0 (N + 1)).last_check_time = (envs N).now)
    (hclock : ∀ i, N ≤ i → (envs N).now ≤ (envs i).now) :
    ∀ i, N + 1 ≤ i →
      (envs N).now ≤ (cycleStates envs sender st0 i).last_check_time := by
  intro i hi
  induction i, hi using Nat.le_induction with
  | base => exact le_of_eq hbase.symm
  | succ n hn ih =>
    show (envs N).now ≤
      (EmailReader.check_new_emails (envs n) (cycleStates envs sender st0 n) sender).2.last_check_time
    rcases last_check_cases (envs n) (cycleStates envs sender st0 n) sender with hc | hc
    · rw [hc]; exact ih
    · rw [hc]; exact hclock n (Nat.le_of_succ_le hn)

/-- If after cycle N the watermark equals that cycle's completion clock and
every date the mailbox stores under id X is at or before that clock, then no
later cycle of the trace returns a record with id X (mailbox unchanged,
clock non-decreasing). -/
lemma late_delivery_excluded (envs : Nat → CycleEnv) (sender : Option String)
    (st0 : ReaderState) (N M X : Nat)
    (hbase : (cycleStates envs sender st0 (N + 1)).last_check_time = (envs N).now)
    (hNM : N < M)
    (hMB : (envs M).mailbox = (envs N).mailbox)
    (hclock : ∀ i, N ≤ i → (envs N).now ≤ (envs i).now)
    (hdate : ∀ m d, (envs N).mailbox.find? (fun mm => mm.mid == X) = some m →
      m.dateHeader = some d → d ≤ (envs N).now) :
    ∀ e', e' ∈ cycleResult envs sender st0 M → e'.id ≠ X := by
  intro e' he' hid
  have he'' : e' ∈ (EmailReader.check_new_emails (envs M)
      (cycleStates envs sender st0 M) sender).1 := he'
  obtain ⟨-, i, -, -, m, hfind, d, hd, hlt, he⟩ := mem_check he''
  have hiX : i = X := by rw [he] at hid; simpa using hid
  subst hiX
  rw [hMB] at hfind
  have hub : d ≤ (envs N).now := hdate m d hfind hd
  have hge : (envs N).now ≤ (cycleStates envs sender st0 M).last_check_time :=
    cycleStates_ge envs sender st0 N hbase hclock M hNM
  omega

/-- The connect retry loop performs at most as many attempts as it is given. -/
lemma connectGo_attempts_le (cenv : ConnectEnv) :
    ∀ (r a : Nat) (imap : Option Nat),
      (EmailReader.connectGo cenv imap a r).attempts ≤ r := by
  intro r
  induction r with
  | zero => intro a imap; simp [EmailReader.connectGo]
  | succ rem ih =>
    intro a imap
    unfold EmailReader.connectGo
    cases hoc : cenv.outcome a with
    | ok => simp
    | transportFail => simpa using Nat.succ_le_succ (ih (a + 1) imap)
    | loginRaise => simpa using Nat.succ_le_succ (ih (a + 1) (some (cenv.handle a)))
    | loginNotOk => simpa using Nat.succ_le_succ (ih (a + 1) (some (cenv.handle a)))

/-- When every attempt fails, connect returns False, makes exactly the given
number of attempts, and sleeps 5 seconds times the one-based attempt number
after every failed attempt except the last. -/
lemma connectGo_fail (cenv : ConnectEnv) :
    ∀ (r a : Nat) (imap : Option Nat),
      (∀ i, i < r → cenv.outcome (a + i) ≠ .ok) →
      (EmailReader.connectGo cenv imap a r).success = false ∧
      (EmailReader.connectGo cenv imap a r).attempts = r ∧
      (EmailReader.connectGo cenv imap a r).sleeps =
        (List.range' (a + 1) (r - 1)).map (fun j => 5 * j) := by
  intro r
  induction r with
  | zero => intro a imap _; simp [EmailReader.connectGo]
  | succ rem ih =>
    intro a imap hfail
    have h0 : cenv.outcome a ≠ .ok := by simpa using hfail 0 (Nat.succ_pos rem)
    have hshift : ∀ i, i < rem → cenv.outcome (a + 1 + i) ≠ .ok := by
      intro i hi
      have h' : a + 1 + i = a + (i + 1) := by omega
      rw [h']
      exact hfail (i + 1) (by omega)
    unfold EmailReader.connectGo
    cases hoc : cenv.outcome a with
    | ok => exact absurd hoc h0
    | transportFail =>
      obtain ⟨h1, h2, h3⟩ := ih (a + 1) imap hshift
      refine ⟨by simpa using h1, by simpa using h2, ?_⟩
      cases rem with
      | zero => simpa using h3
      | succ k => simp only []; simp [h3, List.range']
    | loginRaise =>
      obtain ⟨h1, h2, h3⟩ := ih (a + 1) (some (cenv.handle a)) hshift
      refine ⟨by simpa using h1, by simpa using h2, ?_⟩
      cases rem with
      | zero => simpa using h3
      | succ k => simp only []; simp [h3, List.range']
    | loginNotOk =>
      obtain ⟨h1, h2, h3⟩ := ih (a + 1) (some (cenv.handle a)) hshift
      refine ⟨by simpa using h1, by simpa using h2, ?_⟩
      cases rem with
      | zero => simpa using h3
      | succ k => simp only []; simp [h3, List.range']

/-- When every attempt fails at the transport stage (the constructor raises
before a handle is assigned), self.imap is left exactly as it was. -/
lemma connectGo_transport (cenv : ConnectEnv) :
    ∀ (r a : Nat) (imap : Option Nat),
      (∀ i, i < r → cenv.outcome (a + i) = .transportFail) →
      (EmailReader.connectGo cenv imap a r).imap = imap := by
  intro r
  induction r with
  | zero => intro a imap _; simp [EmailReader.connectGo]
  | succ rem ih =>
    intro a imap hall
    have h0 : cenv.outcome a = .transportFail := by simpa using hall 0 (Nat.succ_pos rem)
    have hshift : ∀ i, i < rem → cenv.outcome (a + 1 + i) = .transportFail := by
      intro i hi
      have h' : a + 1 + i = a + (i + 1) := by omega
      rw [h']
      exact hall (i + 1) (by omega)
    unfold EmailReader.connectGo
    rw [h0]
    simpa using ih (a + 1) imap hshift

/-- The dispatch loop invokes the handler on the longest prefix it accepts,
plus the first failing message when there is one, and reports whether every
callback completed. -/
lemma dispatchEmails_eq (handler : ParsedEmail → Bool) :
    ∀ es : List ParsedEmail,
      dispatchEmails handler es =
        (es.takeWhile handler ++ (es.dropWhile handler).take 1, es.all handler) := by
  intro es
  induction es with
  | nil => simp [dispatchEmails]
  | cons e rest ih =>
    by_cases he : handler e = true
    · simp [dispatchEmails, he, ih, List.takeWhile_cons, List.dropWhile_cons]
    · simp [dispatchEmails, he, List.takeWhile_cons, List.dropWhile_cons,
        Bool.not_eq_true _ ▸ he]

/-- One ASCII byte decodes to its own character. -/
lemma utf8GoIgnore_cons_ascii (fuel b : Nat) (bs : Bytes) (hb : b < 0x80) :
    utf8GoIgnore (fuel + 1) (b :: bs) = Char.ofNat b :: utf8GoIgnore fuel bs := by
  conv_lhs => rw [utf8GoIgnore.eq_def]
  simp [hb]

/-- A 0xFF byte can never start a UTF-8 sequence and is dropped. -/
lemma utf8GoIgnore_ff (fuel : Nat) (ys : Bytes) :
    utf8GoIgnore (fuel + 1) (0xFF :: ys) = utf8GoIgnore fuel ys := by
  conv_lhs => rw [utf8GoIgnore.eq_def]
  norm_num

/-- ASCII bytes decode to themselves in front of any tail. -/
lemma utf8GoIgnore_ascii :
    ∀ (xs tail : Bytes) (fuel : Nat), (∀ b ∈ xs, b < 0x80) →
      utf8GoIgnore (xs.length + fuel) (xs ++ tail) =
        xs.map Char.ofNat ++ utf8GoIgnore fuel tail := by
  intro xs
  induction xs with
  | nil => intro tail fuel _; simp
  | cons b rest ih =>
    intro tail fuel hascii
    have hb : b < 0x80 := hascii b (List.mem_cons_self _ _)
    have hrest : ∀ x ∈ rest, x < 0x80 := fun x hx => hascii x (List.mem_cons_of_mem _ hx)
    have hlen : (b :: rest).length + fuel = (rest.length + fuel) + 1 := by
      simp [List.length_cons]; omega
    rw [List.cons_append, hlen, utf8GoIgnore_cons_ascii _ _ _ hb, ih tail fuel hrest]
    simp

/-- Dropping behaviour of errors=ignore: a 0xFF byte between ASCII text and
any tail disappears from the decoded text. -/
lemma utf8DecodeIgnore_drop (xs ys : Bytes) (h : ∀ b ∈ xs, b < 0x80) :
    utf8DecodeIgnore (xs ++ 0xFF :: ys) = utf8DecodeIgnore (xs ++ ys) := by
  unfold utf8DecodeIgnore
  have h1 : (xs ++ 0xFF :: ys).length = xs.length + (ys.length + 1) := by simp
  have h2 : (xs ++ ys).length = xs.length + ys.length := by simp
  rw [h1, h2, utf8GoIgnore_ascii xs (0xFF :: ys) (ys.length + 1) h,
    utf8GoIgnore_ascii xs ys ys.length h, utf8GoIgnore_ff]

/-- Single-part bodies with no declared charset decode as UTF-8. -/
lemma get_email_body_single_none (p : Bytes) :
    EmailReader.get_email_body (.single none p) =
      pyStrip (String.mk (utf8DecodeIgnore p)) := rfl

/-- A declared utf-8 charset decodes the same way as the default. -/
lemma get_email_body_single_utf8 (p : Bytes) :
    EmailReader.get_email_body (.single (some "utf-8") p) =
      EmailReader.get_email_body (.single none p) := rfl

/-- Teardown oracle on which close and logout always succeed. -/
def teOk : TeardownEnv := { closeOk := fun _ => true, logoutOk := fun _ => true }

/-- Connect oracle that succeeds immediately with handle 9. -/
def okConnect : ConnectEnv := { outcome := fun _ => .ok, handle := fun _ => 9 }

/-- A fully healthy cycle environment over a given mailbox and clock. -/
def goodEnv (mb : List Msg) (now : Int) : CycleEnv :=
  { now := now
    noopOk := fun _ => true
    connectEnv := fun _ => okConnect
    selectOut := fun _ => .ok
    te := teOk
    searchOut := .ok
    mailbox := mb
    fetchOut := fun _ => .ok }

/-- Claim C10 (confirmed): disconnect clears the stored session handle only
when close and logout both complete without raising; when either raises the
stale handle remains set, and the next ensure_connection call probes that
stale handle with noop instead of unconditionally reconnecting. -/
theorem C10_disconnect_stale_handle :
    ∀ (te : TeardownEnv) (h : Nat),
      (EmailReader.disconnect te (some h) = none ↔
        te.closeOk h = true ∧ te.logoutOk h = true) ∧
      ((te.closeOk h = false ∨ te.logoutOk h = false) →
        EmailReader.disconnect te (some h) = some h) ∧
      (∀ env : CycleEnv, env.noopOk h = true →
        EmailReader.ensure_connection env (some h) = (true, some h)) := by
  intro te h
  refine ⟨?_, ?_, ?_⟩
  · unfold EmailReader.disconnect
    by_cases hc : te.closeOk h = true <;> by_cases hl : te.logoutOk h = true <;>
      simp [hc, hl]
  · intro hor
    unfold EmailReader.disconnect
    rcases hor with hc | hl
    · simp [hc]
    · simp [hl]
  · intro env hn
    unfold EmailReader.ensure_connection
    simp [hn]

/-- Teardown oracle on which close raises for every handle. -/
def teBad : TeardownEnv := { closeOk := fun _ => false, logoutOk := fun _ => true }

/-- Cycle environment used to exercise the noop probe of C10. -/
def envW10 : CycleEnv := goodEnv [] 0

/-- Witness for C10 at a concrete teardown failure and a concrete probe. -/
theorem C10_witness :
    EmailReader.disconnect teBad (some 5) = some 5 ∧
    EmailReader.ensure_connection envW10 (some 5) = (true, some 5) :=
  ⟨(C10_disconnect_stale_handle teBad 5).2.1 (Or.inl rfl),
   (C10_disconnect_stale_handle teBad 5).2.2 envW10 rfl⟩

/-- Claim C7 (corrected): connect performs at most the given number of
attempts; when every attempt fails it returns False after exactly that many
attempts, having slept 5 seconds times the one-based attempt number between
failed attempts, and no exception escapes; the session handle is preserved
(Disconnected stays Disconnected) when every failure is at the transport
stage — but not in general, see the counterexample. -/
theorem C7_amended :
    ∀ (cenv : ConnectEnv) (imap0 : Option Nat) (n : Nat),
      (EmailReader.connect cenv imap0 n).attempts ≤ n ∧
      ((∀ i, i < n → cenv.outcome i ≠ .ok) →
        (EmailReader.connect cenv imap0 n).success = false ∧
        (EmailReader.connect cenv imap0 n).attempts = n ∧
        (EmailReader.connect cenv imap0 n).sleeps =
          (List.range' 1 (n - 1)).map (fun j => 5 * j)) ∧
      ((∀ i, i < n → cenv.outcome i = .transportFail) →
        (EmailReader.connect cenv imap0 n).imap = imap0) := by
  intro cenv imap0 n
  refine ⟨connectGo_attempts_le cenv n 0 imap0, fun h => ?_, fun h => ?_⟩
  · simpa using connectGo_fail cenv n 0 imap0 (fun i hi => by simpa using h i hi)
  · exact connectGo_transport cenv n 0 imap0 (fun i hi => by simpa using h i hi)

/-- Connect oracle on which the socket is always established and login then
always raises (for example a permanently rejected password). -/
def cenvLoginRaise : ConnectEnv := { outcome := fun _ => .loginRaise, handle := fun i => 10 + i }

/-- Counterexample for C7 as stated: with three attempts all failing at the
login step, connect returns a failure result but the stale handle of the
last attempt is retained in self.imap — the session is NOT left with no
live session handle. -/
theorem C7_counterexample :
    (EmailReader.connect cenvLoginRaise none 3).success = false ∧
    (EmailReader.connect cenvLoginRaise none 3).attempts = 3 ∧
    (EmailReader.connect cenvLoginRaise none 3).imap = some 12 ∧
    (EmailReader.connect cenvLoginRaise none 3).imap ≠ none := by decide

/-- Connect oracle on which the constructor itself always fails. -/
def cenvTransport : ConnectEnv := { outcome := fun _ => .transportFail, handle := fun _ => 0 }

/-- Witness for C7 at a concrete all-transport-failure run. -/
theorem C7_witness :
    (EmailReader.connect cenvTransport none 3).success = false ∧
    (EmailReader.connect cenvTransport none 3).attempts = 3 ∧
    (EmailReader.connect cenvTransport none 3).sleeps = [5, 10] ∧
    (EmailReader.connect cenvTransport none 3).imap = none := by
  obtain ⟨hs, ha, hsl⟩ := (C7_amended cenvTransport none 3).2.1 (fun i _ => by simp [cenvTransport])
  refine ⟨hs, ha, ?_, (C7_amended cenvTransport none 3).2.2 (fun i _ => rfl)⟩
  rw [hsl]; decide

/-- Claim C9 (corrected): a single-part body is decoded with its declared
charset, defaulting to UTF-8, and undecodable bytes are DROPPED (the source
decodes with errors=ignore) rather than raising — not replaced as the claim
states. -/
theorem C9_amended :
    ∀ (p xs ys : Bytes),
      EmailReader.get_email_body (.single (some "utf-8") p) =
        EmailReader.get_email_body (.single none p) ∧
      ((∀ b ∈ xs, b < 0x80) →
        EmailReader.get_email_body (.single none (xs ++ 0xFF :: ys)) =
          EmailReader.get_email_body (.single none (xs ++ ys))) := by
  intro p xs ys
  refine ⟨get_email_body_single_utf8 p, fun h => ?_⟩
  rw [get_email_body_single_none, get_email_body_single_none,
    utf8DecodeIgnore_drop xs ys h]

/-- Witness for C9: the byte 0xFF between ASCII bytes is dropped. -/
theorem C9_witness :
    (∀ b ∈ [65], b < 0x80) ∧
    EmailReader.get_email_body (.single none ([65] ++ 0xFF :: [66])) =
      EmailReader.get_email_body (.single none ([65] ++ [66])) :=
  ⟨by decide, (C9_amended [] [65] [66]).2 (by decide)⟩

/-- Counterexample for C9 as stated: on the payload 0x41 0xFF 0x42 the
source yields "AB" (the invalid byte is ignored), while the spec-modelled
replacement policy yields "A�B" — bytes that fail to decode are not
replaced. -/
theorem C9_counterexample :
    EmailReader.get_email_body (.single none [65, 255, 66]) = "AB" ∧
    get_email_body_spec none [65, 255, 66] = "A�B" ∧
    EmailReader.get_email_body (.single none [65, 255, 66]) ≠
      get_email_body_spec none [65, 255, 66] := by decide

/-- First mailbox message of the C1 scenario. -/
def msgC1a : Msg :=
  { mid := 1, internalDate := 0, fromHeader := "a@b", subject := "s1",
    dateHeader := some 50, mime := .single none [] }

/-- Second mailbox message of the C1 scenario. -/
def msgC1b : Msg :=
  { mid := 2, internalDate := 0, fromHeader := "c@d", subject := "s2",
    dateHeader := some 60, mime := .single none [] }

/-- Healthy environment delivering both C1 messages. -/
def envC1 : CycleEnv := goodEnv [msgC1a, msgC1b] 100

/-- Reader state at the start of the C1 cycle. -/
def stC1 : ReaderState := { imap := some 1, last_check_time := 0 }

/-- Handler that raises exactly on the message with id 1. -/
def handlerC1 : ParsedEmail → Bool := fun e => e.id != 1

/-- The first record the C1 cycle returns. -/
def e1C1 : ParsedEmail :=
  { id := 1, subject := "s1", from_name := "a@b", from_email := "a@b", body := "", date := 50 }

/-- The second record the C1 cycle returns. -/
def e2C1 : ParsedEmail :=
  { id := 2, subject := "s2", from_name := "c@d", from_email := "c@d", body := "", date := 60 }

/-- Counterexample for C1 as stated: a cycle yields two new messages, the
handler raises on the first, and the second message of the same cycle is
NOT invoked — handler failures abort the rest of the cycle instead of being
isolated per message. -/
theorem C1_counterexample :
    (EmailReader.check_new_emails envC1 stC1 none).1 = [e1C1, e2C1] ∧
    handlerC1 e1C1 = false ∧
    (EmailReader.run_email_monitoring_cycle envC1 stC1 none handlerC1).1 = [e1C1] ∧
    e2C1 ∉ (EmailReader.run_email_monitoring_cycle envC1 stC1 none handlerC1).1 := by
  decide

/-- Claim C1 (corrected): in a monitoring-loop iteration the handler is
invoked on the longest prefix of the poll result on which it succeeds, plus
the first failing message; when some handler call fails, the loop logs it,
tears the session down (disconnect) and keeps the watermark — the remaining
messages of that same cycle are dropped. -/
theorem C1_amended :
    ∀ (env : CycleEnv) (st : ReaderState) (sender : Option String)
      (handler : ParsedEmail → Bool),
      (EmailReader.run_email_monitoring_cycle env st sender handler).1 =
        (EmailReader.check_new_emails env st sender).1.takeWhile handler ++
          ((EmailReader.check_new_emails env st sender).1.dropWhile handler).take 1 ∧
      ((EmailReader.check_new_emails env st sender).1.all handler = false →
        (EmailReader.run_email_monitoring_cycle env st sender handler).2.imap =
          EmailReader.disconnect env.te
            (EmailReader.check_new_emails env st sender).2.imap ∧
        (EmailReader.run_email_monitoring_cycle env st sender handler).2.last_check_time =
          (EmailReader.check_new_emails env st sender).2.last_check_time) := by
  intro env st sender handler
  constructor
  · by_cases hall : (EmailReader.check_new_emails env st sender).1.all handler = true <;>
      simp [EmailReader.run_email_monitoring_cycle, dispatchEmails_eq, hall]
  · intro hfalse
    simp [EmailReader.run_email_monitoring_cycle, dispatchEmails_eq, hfalse]

/-- Witness for C1 with a concretely failing handler call. -/
theorem C1_witness :
    (EmailReader.run_email_monitoring_cycle envC1 stC1 none handlerC1).2.imap =
      EmailReader.disconnect envC1.te (EmailReader.check_new_emails envC1 stC1 none).2.imap ∧
    (EmailReader.run_email_monitoring_cycle envC1 stC1 none handlerC1).1 =
      (EmailReader.check_new_emails envC1 stC1 none).1.takeWhile handlerC1 ++
        ((EmailReader.check_new_emails envC1 stC1 none).1.dropWhile handlerC1).take 1 :=
  ⟨((C1_amended envC1 stC1 none handlerC1).2 (by decide)).1,
   (C1_amended envC1 stC1 none handlerC1).1⟩

/-- Environment for the C5 counterexample: the first INBOX select fails with
a non-OK status, everything else is healthy. -/
def envC5 : CycleEnv :=
  { goodEnv [] 200 with selectOut := fun n => if n = 0 then .notOk else .ok }

/-- Reader state at the start of the C5 counterexample cycle. -/
def stC5 : ReaderState := { imap := some 5, last_check_time := 100 }

/-- Counterexample for C5 as stated: selecting INBOX fails, yet the cycle
recovers through the in-place reconnect + re-select, proceeds to the search
and ADVANCES the watermark from 100 to 200 — a select failure does not
leave the watermark unchanged. -/
theorem C5_counterexample :
    envC5.selectOut 0 = .notOk ∧
    (EmailReader.check_new_emails envC5 stC5 none).1 = [] ∧
    (EmailReader.check_new_emails envC5 stC5 none).2.last_check_time = 200 ∧
    stC5.last_check_time = 100 := by decide

/-- Claim C5 (corrected): whenever the cycle does not reach per-message
processing — the connection cannot be ensured, or the select block fails
beyond its built-in reconnect-and-retry recovery, or the search fails —
poll returns an empty list and leaves the watermark unchanged.  (A select
failure that the automatic reconnect recovers lets the cycle continue, so
it is excluded.) -/
theorem C5_amended :
    ∀ (env : CycleEnv) (st : ReaderState) (sender : Option String),
      ¬ reachesProcessing env st →
      (EmailReader.check_new_emails env st sender).1 = [] ∧
      (EmailReader.check_new_emails env st sender).2.last_check_time =
        st.last_check_time := by
  intro env st sender h
  exact check_not_reaches sender h

/-- Environment for the C5 witness: the noop probe fails and every reconnect
attempt fails at the transport stage. -/
def envC5w : CycleEnv :=
  { goodEnv [] 300 with noopOk := fun _ => false, connectEnv := fun _ => cenvTransport }

/-- Reader state for the C5 witness. -/
def stC5w : ReaderState := { imap := some 7, last_check_time := 42 }

/-- Witness for C5 on a concrete connection failure. -/
theorem C5_witness :
    ¬ reachesProcessing envC5w stC5w ∧
    (EmailReader.check_new_emails envC5w stC5w none).1 = [] ∧
    (EmailReader.check_new_emails envC5w stC5w none).2.last_check_time = 42 :=
  ⟨by decide, (C5_amended envC5w stC5w none (by decide)).1,
   (C5_amended envC5w stC5w none (by decide)).2⟩

/-- Environment for the C6 counterexample: the search returns a non-OK
status, everything else is healthy. -/
def envC6 : CycleEnv := { goodEnv [] 400 with searchOut := .notOk }

/-- Reader state for the C6 counterexample. -/
def stC6 : ReaderState := { imap := some 5, last_check_time := 100 }

/-- Counterexample for C6 as stated: an internal error (failed search)
degrades to an empty result, but the session is NOT marked for reconnection:
the handle survives untouched and the next ensure_connection call accepts it
via the noop probe without reconnecting. -/
theorem C6_counterexample :
    envC6.searchOut = .notOk ∧
    (EmailReader.check_new_emails envC6 stC6 none).1 = [] ∧
    (EmailReader.check_new_emails envC6 stC6 none).2.imap = some 5 ∧
    EmailReader.ensure_connection envC6 (some 5) = (true, some 5) := by decide

/-- Claim C6 (corrected): check_new_emails never propagates an error to its
caller — every cycle-level failure degrades to an empty result with the
watermark untouched; only a connection-class exception reaching the outer
handler triggers the disconnect (reconnection mark), while any other
exception leaves the session handle exactly as it was at the raise. -/
theorem C6_amended :
    ∀ (env : CycleEnv) (st : ReaderState) (sender : Option String),
      (¬ reachesProcessing env st →
        (EmailReader.check_new_emails env st sender).1 = [] ∧
        (EmailReader.check_new_emails env st sender).2.last_check_time =
          st.last_check_time) ∧
      (∀ (c : Bool) (i : Option Nat), topRaise env st = some (c, i) →
        (EmailReader.check_new_emails env st sender).2.imap =
          (if c then EmailReader.disconnect env.te i else i)) := by
  intro env st sender
  refine ⟨fun h => check_not_reaches sender h, ?_⟩
  intro c i htop
  unfold topRaise at htop
  rcases hE : EmailReader.ensure_connection env st.imap with ⟨b, i0⟩
  rw [hE] at htop
  cases b
  · simp at htop
  · simp only at htop
    cases hS : selectPhase env i0 with
    | earlyEmpty j => rw [hS] at htop; simp at htop
    | raised c' j =>
      rw [hS] at htop
      simp only [Option.some.injEq, Prod.mk.injEq] at htop
      obtain ⟨hc, hj⟩ := htop
      subst hc; subst hj
      cases c' <;> simp [EmailReader.check_new_emails, hE, hS]
    | proceed j =>
      rw [hS] at htop
      cases hq : env.searchOut with
      | ok => rw [hq] at htop; simp at htop
      | notOk => rw [hq] at htop; simp at htop
      | raiseConn =>
        rw [hq] at htop
        simp only [Option.some.injEq, Prod.mk.injEq] at htop
        obtain ⟨hc, hj⟩ := htop
        subst hc; subst hj
        simp [EmailReader.check_new_emails, hE, hS, hq]
      | raiseOther =>
        rw [hq] at htop
        simp only [Option.some.injEq, Prod.mk.injEq] at htop
        obtain ⟨hc, hj⟩ := htop
        subst hc; subst hj
        simp [EmailReader.check_new_emails, hE, hS, hq]

/-- Environment for the C6 witness: the search raises a connection-class
exception on an otherwise healthy session. -/
def envC6w : CycleEnv := { goodEnv [] 500 with searchOut := .raiseConn }

/-- Reader state for the C6 witness. -/
def stC6w : ReaderState := { imap := some 5, last_check_time := 100 }

/-- Witness for C6: a concrete connection-class raise runs the teardown. -/
theorem C6_witness :
    topRaise envC6w stC6w = some (true, some 5) ∧
    (EmailReader.check_new_emails envC6w stC6w none).2.imap = none :=
  ⟨by decide, by
    have h := (C6_amended envC6w stC6w none).2 true (some 5) (by decide)
    simpa [envC6w, goodEnv, teOk, EmailReader.disconnect] using h⟩

/-- Claim C8 (corrected): with a sender filter F, every record poll returns
comes from a mailbox message whose raw From header contains F as a
substring (the RFC 3501 FROM matching rule), and the record's sender address
is the address parsed from that header — which need not equal F. -/
theorem C8_amended :
    ∀ (env : CycleEnv) (st : ReaderState) (F : String) (e : ParsedEmail),
      (env.mailbox.map Msg.mid).Nodup →
      e ∈ (EmailReader.check_new_emails env st (some F)).1 →
      ∃ m, m ∈ env.mailbox ∧ e.from_email = (parseaddr m.fromHeader).2 ∧
        containsSub F.data m.fromHeader.data = true := by
  intro env st F e hnd he
  obtain ⟨-, i, hisearch, -, m, hfind, d, -, -, heq⟩ := mem_check he
  unfold searchIds at hisearch
  obtain ⟨m0, hm0mem, hm0mid⟩ := List.mem_map.mp hisearch
  have hm0filt := List.mem_filter.mp hm0mem
  have hsub : containsSub F.data m0.fromHeader.data = true := by
    have hmatch := hm0filt.2
    unfold matchesSearch at hmatch
    simp only [Bool.and_eq_true] at hmatch
    exact hmatch.2
  have hm_mem : m ∈ env.mailbox := List.mem_of_find?_eq_some hfind
  have hm_key : m.mid = i := by
    have := List.find?_some hfind
    simpa using this
  have hmm0 : m = m0 :=
    List.inj_on_of_nodup_map hnd hm_mem hm0filt.1 (by rw [hm_key, hm0mid])
  subst hmm0
  refine ⟨m, hm_mem, ?_, hsub⟩
  rw [heq]
  rfl

/-- Mailbox message of the C8 counterexample: its address "ax@yc" contains
the filter string "x@y" strictly inside. -/
def msgC8 : Msg :=
  { mid := 1, internalDate := 0, fromHeader := "ax@yc", subject := "s",
    dateHeader := some 50, mime := .single none [] }

/-- Environment of the C8 counterexample. -/
def envC8 : CycleEnv := goodEnv [msgC8] 100

/-- Reader state of the C8 counterexample. -/
def stC8 : ReaderState := { imap := some 1, last_check_time := 0 }

/-- The record returned by the C8 counterexample cycle. -/
def eC8 : ParsedEmail :=
  { id := 1, subject := "s", from_name := "ax@yc", from_email := "ax@yc",
    body := "", date := 50 }

/-- Counterexample for C8 as stated: poll with sender filter "x@y" returns a
record whose sender address is "ax@yc" ≠ "x@y", because the server FROM key
matches substrings of the From field, not exact addresses. -/
theorem C8_counterexample :
    eC8 ∈ (EmailReader.check_new_emails envC8 stC8 (some "x@y")).1 ∧
    eC8.from_email ≠ "x@y" := by decide

/-- Mailbox message of the C8 witness. -/
def msgW8 : Msg :=
  { mid := 3, internalDate := 0, fromHeader := "u@v", subject := "w",
    dateHeader := some 50, mime := .single none [] }

/-- Environment of the C8 witness. -/
def envW8 : CycleEnv := goodEnv [msgW8] 100

/-- Reader state of the C8 witness. -/
def stW8 : ReaderState := { imap := some 1, last_check_time := 0 }

/-- The record returned by the C8 witness cycle. -/
def eW8 : ParsedEmail :=
  { id := 3, subject := "w", from_name := "u@v", from_email := "u@v",
    body := "", date := 50 }

/-- Witness for C8 on a concrete filtered poll. -/
theorem C8_witness :
    eW8 ∈ (EmailReader.check_new_emails envW8 stW8 (some "u@v")).1 ∧
    eW8.from_email = (parseaddr msgW8.fromHeader).2 ∧
    containsSub "u@v".data msgW8.fromHeader.data = true := by
  obtain ⟨m, hmem, hfe, hsub⟩ := C8_amended envW8 stW8 "u@v" eW8 (by decide) (by decide)
  have hm : m = msgW8 := by simpa [envW8, goodEnv] using hmem
  subst hm
  exact ⟨by decide, hfe, hsub⟩

/-- Claim C3 (confirmed): the watermark is initialized at construction to
the current UTC time minus one minute, and every poll call leaves it
greater than or equal to its previous value (the wall clock read at the end
of the cycle being at or after the clock reading that produced the previous
watermark value). -/
theorem C3_watermark_monotone :
    (∀ t0 : Int, (EmailReader.init t0).last_check_time = t0 - 60) ∧
    (∀ (env : CycleEnv) (st : ReaderState) (sender : Option String),
      st.last_check_time ≤ env.now →
      st.last_check_time ≤
        (EmailReader.check_new_emails env st sender).2.last_check_time) := by
  refine ⟨fun t0 => rfl, ?_⟩
  intro env st sender hle
  rcases last_check_cases env st sender with hc | hc
  · rw [hc]
  · rw [hc]; exact hle

/-- Environment for the C3 witness. -/
def envW3 : CycleEnv := goodEnv [] 200

/-- Reader state for the C3 witness. -/
def stW3 : ReaderState := { imap := some 1, last_check_time := 100 }

/-- Witness for C3 at a concrete construction time and cycle. -/
theorem C3_witness :
    (EmailReader.init 5).last_check_time = 5 - 60 ∧
    stW3.last_check_time ≤
      (EmailReader.check_new_emails envW3 stW3 none).2.last_check_time :=
  ⟨C3_watermark_monotone.1 5, C3_watermark_monotone.2 envW3 stW3 none (by decide)⟩

/-- Claim C2 (corrected): a record delivered in cycle N whose date is not in
the future of that cycle's completion clock is never delivered again by a
later cycle, under an unchanged mailbox and a non-decreasing clock.  (A
message whose Date header lies beyond the completion clock — see the
counterexample — escapes the watermark and is re-delivered.) -/
theorem C2_amended :
    ∀ (envs : Nat → CycleEnv) (sender : Option String) (st0 : ReaderState)
      (N M : Nat) (e : ParsedEmail),
      (envs M).mailbox = (envs N).mailbox →
      (∀ i, N ≤ i → (envs N).now ≤ (envs i).now) →
      N < M →
      e ∈ cycleResult envs sender st0 N →
      e.date ≤ (envs N).now →
      ∀ e', e' ∈ cycleResult envs sender st0 M → e'.id ≠ e.id := by
  intro envs sender st0 N M e hMB hclock hNM he hdate
  have he2 : e ∈ (EmailReader.check_new_emails (envs N)
      (cycleStates envs sender st0 N) sender).1 := he
  obtain ⟨hnow, i, -, -, m, hfind, d, hd, -, heq⟩ := mem_check he2
  have hbase : (cycleStates envs sender st0 (N + 1)).last_check_time = (envs N).now := hnow
  have hid : e.id = i := by rw [heq]; rfl
  have hdd : d = e.date := by rw [heq]; rfl
  rw [hid]
  refine late_delivery_excluded envs sender st0 N M i hbase hNM hMB hclock ?_
  intro m' d' hfind' hd'
  rw [hfind] at hfind'
  injection hfind' with hm'
  subst hm'
  rw [hd] at hd'
  injection hd' with hd''
  subst hd''
  rw [hdd]
  exact hdate

/-- Mailbox message of the C2 counterexample: its Date header (1000) lies in
the future of both cycle clocks. -/
def msgC2 : Msg :=
  { mid := 1, internalDate := 0, fromHeader := "a@b", subject := "s",
    dateHeader := some 1000, mime := .single none [] }

/-- Environment of the C2 counterexample (clock 10, well before the date). -/
def envC2 : CycleEnv := goodEnv [msgC2] 10

/-- The constant trace of the C2 counterexample. -/
def envsC2 : Nat → CycleEnv := fun _ => envC2

/-- Reader state at the start of the C2 counterexample trace. -/
def stC2 : ReaderState := { imap := some 1, last_check_time := 0 }

/-- The record the C2 counterexample delivers twice. -/
def eC2 : ParsedEmail :=
  { id := 1, subject := "s", from_name := "a@b", from_email := "a@b",
    body := "", date := 1000 }

/-- Counterexample for C2 as stated: under an unchanged mailbox, the same
record (same protocol id) is returned by cycle 0 and again by cycle 1,
because its future Date header stays beyond the advancing watermark. -/
theorem C2_counterexample :
    eC2 ∈ cycleResult envsC2 none stC2 0 ∧
    eC2 ∈ cycleResult envsC2 none stC2 1 ∧
    (envsC2 1).mailbox = (envsC2 0).mailbox :=
  ⟨by decide, by decide, rfl⟩

/-- First mailbox message of the C2 witness trace (normal date). -/
def msgW2a : Msg :=
  { mid := 1, internalDate := 0, fromHeader := "a@b", subject := "s",
    dateHeader := some 50, mime := .single none [] }

/-- Second mailbox message of the C2 witness trace (future date, so cycle 1
still returns something to compare ids against). -/
def msgW2b : Msg :=
  { mid := 2, internalDate := 0, fromHeader := "c@d", subject := "t",
    dateHeader := some 150, mime := .single none [] }

/-- Environment of the C2 witness trace. -/
def envW2 : CycleEnv := goodEnv [msgW2a, msgW2b] 100

/-- The constant trace of the C2 witness. -/
def envsW2 : Nat → CycleEnv := fun _ => envW2

/-- Reader state at the start of the C2 witness trace. -/
def stW2 : ReaderState := { imap := some 1, last_check_time := 0 }

/-- The record delivered in cycle 0 of the C2 witness. -/
def eW2a : ParsedEmail :=
  { id := 1, subject := "s", from_name := "a@b", from_email := "a@b",
    body := "", date := 50 }

/-- The record delivered in cycle 1 of the C2 witness. -/
def eW2b : ParsedEmail :=
  { id := 2, subject := "t", from_name := "c@d", from_email := "c@d",
    body := "", date := 150 }

/-- Witness for C2 on a concrete two-cycle trace. -/
theorem C2_witness :
    eW2a ∈ cycleResult envsW2 none stW2 0 ∧
    eW2b ∈ cycleResult envsW2 none stW2 1 ∧
    eW2b.id ≠ eW2a.id := by
  refine ⟨by decide, by decide, ?_⟩
  exact C2_amended envsW2 none stW2 0 1 eW2a rfl (fun i _ => le_rfl) (by decide)
    (by decide) (by decide) eW2b (by decide)

/-- Claim C4 (corrected): whenever a poll cycle reaches per-message
processing, the watermark is set to the cycle's completion wall clock,
whatever the per-message fetch and parse outcomes and whether or not any
message was found; consequently a message whose fetch or parse failed in
cycle N is never DELIVERED by a later cycle, provided its date is not in
the future of cycle N's completion clock (its id is still re-fetched while
the watermark day lasts, and a future-dated message escapes — see the
counterexample). -/
theorem C4_amended :
    ∀ (envs : Nat → CycleEnv) (sender : Option String) (st0 : ReaderState) (N : Nat),
      reachesProcessing (envs N) (cycleStates envs sender st0 N) →
      (cycleStates envs sender st0 (N + 1)).last_check_time = (envs N).now ∧
      (∀ (X M : Nat), N < M →
        (envs N).fetchOut X ≠ .ok →
        (envs M).mailbox = (envs N).mailbox →
        (∀ i, N ≤ i → (envs N).now ≤ (envs i).now) →
        (∀ m d, (envs N).mailbox.find? (fun mm => mm.mid == X) = some m →
          m.dateHeader = some d → d ≤ (envs N).now) →
        ∀ e', e' ∈ cycleResult envs sender st0 M → e'.id ≠ X) := by
  intro envs sender st0 N hreach
  have hbase : (cycleStates envs sender st0 (N + 1)).last_check_time = (envs N).now :=
    (check_reaches sender hreach).2
  refine ⟨hbase, ?_⟩
  intro X M hNM _hfail hMB hclock hdate
  exact late_delivery_excluded envs sender st0 N M X hbase hNM hMB hclock hdate

/-- Mailbox message of the C4 counterexample: future-dated. -/
def msgC4 : Msg :=
  { mid := 1, internalDate := 0, fromHeader := "a@b", subject := "s",
    dateHeader := some 1000, mime := .single none [] }

/-- Cycle-0 environment of the C4 counterexample: the fetch raises. -/
def envC4a : CycleEnv := { goodEnv [msgC4] 10 with fetchOut := fun _ => .raiseErr }

/-- Cycle-1 environment of the C4 counterexample: the fetch now succeeds. -/
def envC4b : CycleEnv := goodEnv [msgC4] 20

/-- The trace of the C4 counterexample. -/
def envsC4 : Nat → CycleEnv := fun n => if n = 0 then envC4a else envC4b

/-- Reader state at the start of the C4 counterexample trace. -/
def stC4 : ReaderState := { imap := some 1, last_check_time := 0 }

/-- The record the C4 counterexample delivers in cycle 1. -/
def eC4 : ParsedEmail :=
  { id := 1, subject := "s", from_name := "a@b", from_email := "a@b",
    body := "", date := 1000 }

/-- Counterexample for C4 as stated: the fetch of id 1 fails in cycle 0 (the
watermark still advances to 10), and in cycle 1 the same id IS retried —
fetched again and even delivered, since its future date beats the
watermark. -/
theorem C4_counterexample :
    (envsC4 0).fetchOut 1 = .raiseErr ∧
    cycleResult envsC4 none stC4 0 = [] ∧
    (cycleStates envsC4 none stC4 1).last_check_time = 10 ∧
    eC4 ∈ cycleResult envsC4 none stC4 1 ∧
    eC4.id = 1 ∧
    (envsC4 1).mailbox = (envsC4 0).mailbox :=
  ⟨by decide, by decide, by decide, by decide, rfl, rfl⟩

/-- First mailbox message of the C4 witness (id 2, normal date, fetch always
fails for it). -/
def msgW4a : Msg :=
  { mid := 2, internalDate := 0, fromHeader := "a@b", subject := "s",
    dateHeader := some 50, mime := .single none [] }

/-- Second mailbox message of the C4 witness (id 3, future date, delivered
in cycle 1). -/
def msgW4b : Msg :=
  { mid := 3, internalDate := 0, fromHeader := "c@d", subject := "t",
    dateHeader := some 150, mime := .single none [] }

/-- Environment of the C4 witness trace. -/
def envW4 : CycleEnv :=
  { goodEnv [msgW4a, msgW4b] 100 with
    fetchOut := fun i => if i = 2 then .raiseErr else .ok }

/-- The constant trace of the C4 witness. -/
def envsW4 : Nat → CycleEnv := fun _ => envW4

/-- Reader state at the start of the C4 witness trace. -/
def stW4 : ReaderState := { imap := some 1, last_check_time := 0 }

/-- The record delivered in cycle 1 of the C4 witness. -/
def eW4 : ParsedEmail :=
  { id := 3, subject := "t", from_name := "c@d", from_email := "c@d",
    body := "", date := 150 }

/-- Witness for C4 on a concrete trace with a permanently failing fetch. -/
theorem C4_witness :
    reachesProcessing (envsW4 0) (cycleStates envsW4 none stW4 0) ∧
    (cycleStates envsW4 none stW4 1).last_check_time = 100 ∧
    eW4 ∈ cycleResult envsW4 none stW4 1 ∧
    eW4.id ≠ 2 := by
  have h := C4_amended envsW4 none stW4 0 (by decide)
  refine ⟨by decide, h.1, by decide, ?_⟩
  refine h.2 2 1 (by decide) (by decide) rfl (fun i _ => le_rfl) ?_ eW4 (by decide)
  intro m d hfind hd
  have hfind' : some msgW4a = some m := hfind
  injection hfind' with hm
  subst hm
  have hd' : some (50 : Int) = some d := hd
  injection hd' with hdd
  subst hdd
  decide
